import Mathlib

/-!
Verification of the shift-assignment core of the scheduling application.

The development shallowly embeds the algorithmic modules:

* `ILP` — `backend_flask/utils/ilp_assignment.py`: hard-constraint checks,
  soft-constraint scoring, candidate suggestion and greedy auto-fill.
* `SV` — `backend_flask/utils/shift_validator.py`: the manager-facing
  assignment conflict report with its overnight-shift normalization.

Conventions of the embedding:

* A timestamp string is represented by the result of parsing it: `some t`
  with `t` the instant in seconds (a single timezone convention, as the
  callers supply), or `none` when the string is absent or malformed.
  `parse_datetime` is then the identity on this representation.
* Python `float` arithmetic is embedded as `ℚ`; every quantity the claims
  touch is exact in both.
* Error / conflict messages are embedded as structured values carrying the
  data the Python code formats into the message strings.
* Python dicts keep insertion order; `AssignMap` embeds
  `current_assignments : Dict[str, List[str]]` as an association list in
  insertion order, with the dict update-or-append semantics.
-/

/-- The Python `in` membership test on a list of ids. -/
def strIn (x : String) (l : List String) : Bool := l.any (fun y => y == x)

namespace ILP

/-- A shift / event record as consumed by `ilp_assignment.py`.  `start` and
`«end»` hold the parse result of the ISO timestamp strings (seconds since a
fixed epoch); `none` embeds a missing or malformed string.  `assigned` is the
list of employee ids stored on the event (read by callers to derive the
assignment map; the functions of this module never read it). -/
structure Shift where
  id : String
  title : String
  start : Option ℤ
  «end» : Option ℤ
  capacity : ℕ
  assigned : List String
deriving DecidableEq

/-- An employee record (`id`, `username`). -/
structure Employee where
  id : String
  username : String
deriving DecidableEq

/-- An availability window record (`user_id`, `start`, `end`). -/
structure Availability where
  user_id : String
  start : Option ℤ
  «end» : Option ℤ
deriving DecidableEq

/-- `current_assignments : Dict[str, List[str]]`, employee id to the list of
shift ids held, as an insertion-ordered association list. -/
abbrev AssignMap := List (String × List String)

/-- `current_assignments.get(employee_id, [])`. -/
def assignGetD (m : AssignMap) (k : String) : List String :=
  match m.find? (fun p => p.1 == k) with
  | some p => p.2
  | none => []

/-- The in-place update
`if k not in m: m[k] = []` followed by `m[k].append(v)`:
append `v` to the entry of `k`, creating the entry at the end when absent. -/
def assignAppend : AssignMap → String → String → AssignMap
  | [], k, v => [(k, [v])]
  | p :: rest, k, v =>
    if p.1 == k then (p.1, p.2 ++ [v]) :: rest else p :: assignAppend rest k v

/-- `parse_datetime`: on the pre-parsed timestamp representation this is the
identity (the Python function maps the string to `some` instant or `None`). -/
def parse_datetime (s : Option ℤ) : Option ℤ := s

/-- `get_shift_duration_hours`: `(end - start)` seconds over 3600, `0` when
either timestamp fails to parse. -/
def get_shift_duration_hours (shift : Shift) : ℚ :=
  match parse_datetime shift.start, parse_datetime shift.«end» with
  | some s, some e => ((e - s : ℤ) : ℚ) / 3600
  | _, _ => 0

/-- `get_shift_date`: the calendar date of the start instant, as a day
number (floor division of the instant by 86400 seconds). -/
def get_shift_date (shift : Shift) : Option ℤ :=
  (parse_datetime shift.start).map (fun t => Int.fdiv t 86400)

/-- `shifts_overlap`: `not (end1 <= start2 or end2 <= start1)` when all four
timestamps parse, `False` otherwise. -/
def shifts_overlap (shift1 shift2 : Shift) : Bool :=
  match parse_datetime shift1.start, parse_datetime shift1.«end»,
        parse_datetime shift2.start, parse_datetime shift2.«end» with
  | some start1, some end1, some start2, some end2 =>
    decide (¬ (end1 ≤ start2 ∨ end2 ≤ start1))
  | _, _, _, _ => false

/-- Structured form of the error-message strings produced by the hard
constraint checks (the Python code interpolates these data into text). -/
inductive Msg where
  | overlapsWith (title : String)
  | breakAfterPrev (breakHours minBreak : ℚ)
  | breakBeforeNext (breakHours minBreak : ℚ)
  | tooManyDailyHours (daily maxHours : ℚ) (date : ℤ)
  | noAvailabilityWindow
  | invalidShiftTime
  | notWithinAvailability
  | couldNotFill (slots : ℕ)
deriving DecidableEq

/-- `check_no_overlap_constraint` (hard constraint 1): fails on the first
already-assigned shift of the employee that overlaps the candidate. -/
def check_no_overlap_constraint (employee_id : String) (shift : Shift)
    (current_assignments : AssignMap) (all_events : List Shift) :
    Bool × Option Msg :=
  let assigned_shift_ids := assignGetD current_assignments employee_id
  let assigned_shifts := all_events.filter (fun e => strIn e.id assigned_shift_ids)
  match assigned_shifts.find? (fun a => shifts_overlap shift a) with
  | some a => (false, some (Msg.overlapsWith a.title))
  | none => (true, none)

/-- `check_break_time_constraint` (hard constraint 2): fails on the first
already-assigned shift separated from the candidate by a gap below
`min_break_hours` (Python default `1.0`); pairs with an unparseable
timestamp are skipped. -/
def check_break_time_constraint (employee_id : String) (shift : Shift)
    (current_assignments : AssignMap) (all_events : List Shift)
    (min_break_hours : ℚ) : Bool × Option Msg :=
  let assigned_shift_ids := assignGetD current_assignments employee_id
  let assigned_shifts := all_events.filter (fun e => strIn e.id assigned_shift_ids)
  let shift_start := parse_datetime shift.start
  let shift_end := parse_datetime shift.«end»
  let violation := fun (a : Shift) =>
    match shift_start, shift_end, parse_datetime a.start, parse_datetime a.«end» with
    | some ss, some se, some astart, some aend =>
      if aend ≤ ss then
        let break_hours : ℚ := ((ss - aend : ℤ) : ℚ) / 3600
        if break_hours < min_break_hours then
          some (Msg.breakAfterPrev break_hours min_break_hours)
        else none
      else if se ≤ astart then
        let break_hours : ℚ := ((astart - se : ℤ) : ℚ) / 3600
        if break_hours < min_break_hours then
          some (Msg.breakBeforeNext break_hours min_break_hours)
        else none
      else none
    | _, _, _, _ => none
  match assigned_shifts.findSome? violation with
  | some m => (false, some m)
  | none => (true, none)

/-- `check_max_hours_per_day_constraint` (hard constraint 3): the candidate
duration plus the durations of assigned shifts sharing its calendar date
must not exceed `max_hours_per_day` (Python default `12.0`); passes when the
candidate start does not parse. -/
def check_max_hours_per_day_constraint (employee_id : String) (shift : Shift)
    (current_assignments : AssignMap) (all_events : List Shift)
    (max_hours_per_day : ℚ) : Bool × Option Msg :=
  let shift_date := get_shift_date shift
  let shift_duration := get_shift_duration_hours shift
  match shift_date with
  | none => (true, none)
  | some d =>
    let assigned_shift_ids := assignGetD current_assignments employee_id
    let daily_hours := shift_duration +
      ((all_events.filter (fun e =>
          strIn e.id assigned_shift_ids && (get_shift_date e == some d))).map
        get_shift_duration_hours).sum
    if daily_hours > max_hours_per_day then
      (false, some (Msg.tooManyDailyHours daily_hours max_hours_per_day d))
    else (true, none)

/-- `check_availability_constraint` (hard constraint 4): the whole candidate
interval must lie inside some availability window of the employee; zero
windows or an unparseable candidate timestamp fail closed. -/
def check_availability_constraint (employee_id : String) (shift : Shift)
    (availabilities : List Availability) : Bool × Option Msg :=
  let emp_availabilities := availabilities.filter (fun a => a.user_id == employee_id)
  if emp_availabilities.isEmpty then
    (false, some Msg.noAvailabilityWindow)
  else
    match parse_datetime shift.start, parse_datetime shift.«end» with
    | some shift_start, some shift_end =>
      if emp_availabilities.any (fun avail =>
          match parse_datetime avail.start, parse_datetime avail.«end» with
          | some avail_start, some avail_end =>
            decide (avail_start ≤ shift_start ∧ shift_end ≤ avail_end)
          | _, _ => false) then
        (true, none)
      else (false, some Msg.notWithinAvailability)
    | _, _ => (false, some Msg.invalidShiftTime)

/-- `check_capacity_constraint` (hard constraint 5, defined in the source but
not invoked by `auto_assign_shift`): counts the employees holding the shift
id and reports whether slots remain. -/
def check_capacity_constraint (shift : Shift)
    (current_assignments : AssignMap) : Bool × ℤ :=
  let assigned_count : ℤ :=
    ((current_assignments.filter (fun p => strIn shift.id p.2)).length : ℤ)
  let slots_remaining : ℤ := (shift.capacity : ℤ) - assigned_count
  (decide (slots_remaining > 0), max 0 slots_remaining)

/-- The `errors.append(error)` step of `check_all_hard_constraints`: the
message object of a failed check is appended as it is (`None` included). -/
def appendErr (acc : List (Option Msg)) (r : Bool × Option Msg) : List (Option Msg) :=
  if r.1 then acc else acc ++ [r.2]

/-- `check_all_hard_constraints`: run the four checks (with the Python
default thresholds 1.0h break, 12.0h daily), collecting every violation. -/
def check_all_hard_constraints (employee_id : String) (shift : Shift)
    (current_assignments : AssignMap) (all_events : List Shift)
    (availabilities : List Availability) : Bool × List (Option Msg) :=
  let r1 := check_no_overlap_constraint employee_id shift current_assignments all_events
  let r2 := check_break_time_constraint employee_id shift current_assignments all_events 1
  let r3 := check_max_hours_per_day_constraint employee_id shift current_assignments all_events 12
  let r4 := check_availability_constraint employee_id shift availabilities
  let errors := appendErr (appendErr (appendErr (appendErr [] r1) r2) r3) r4
  (errors.isEmpty, errors)

/-- The `employee_hours` dict of `calculate_fairness_score`: per entry of the
assignment map, the total duration of the events whose id the entry holds. -/
def employeeHoursList (current_assignments : AssignMap) (all_events : List Shift) :
    List (String × ℚ) :=
  current_assignments.map (fun p =>
    (p.1, ((all_events.filter (fun e => strIn e.id p.2)).map
      get_shift_duration_hours).sum))

/-- `employee_hours.get(employee_id, 0)`. -/
def lookupHours (employee_hours : List (String × ℚ)) (employee_id : String) : ℚ :=
  match employee_hours.find? (fun p => p.1 == employee_id) with
  | some p => p.2
  | none => 0

/-- `calculate_fairness_score` (soft constraint 1, weight 0.45): `0.5` when
the assignment map is empty, else `max(0, 1 - hours/avg)` (or `1.0` when the
average is not positive). -/
def calculate_fairness_score (employee_id : String)
    (current_assignments : AssignMap) (all_events : List Shift) : ℚ :=
  let employee_hours := employeeHoursList current_assignments all_events
  if employee_hours.isEmpty then 1 / 2
  else
    let hours_list := employee_hours.map (fun p => p.2)
    let avg_hours := hours_list.sum / (hours_list.length : ℚ)
    let emp_hours := lookupHours employee_hours employee_id
    if avg_hours > 0 then max 0 (1 - emp_hours / avg_hours)
    else 1

/-- `calculate_availability_match_score` (soft constraint 2, weight 0.35):
`1.0` when the candidate start lies in some window of the employee, `0.3`
when the employee has windows but none covers it, `0.5` with no windows or
an unparseable start. -/
def calculate_availability_match_score (employee_id : String) (shift : Shift)
    (availabilities : List Availability) : ℚ :=
  let emp_availabilities := availabilities.filter (fun a => a.user_id == employee_id)
  if emp_availabilities.isEmpty then 1 / 2
  else
    match parse_datetime shift.start with
    | none => 1 / 2
    | some shift_start =>
      if emp_availabilities.any (fun avail =>
          match parse_datetime avail.start, parse_datetime avail.«end» with
          | some avail_start, some avail_end =>
            decide (avail_start ≤ shift_start ∧ shift_start ≤ avail_end)
          | _, _ => false) then 1
      else 3 / 10

/-- `calculate_reliability_score` (soft constraint 3, weight 0.20): the
source looks the user up and returns the stub `0.8` on both branches. -/
def calculate_reliability_score (employee_id : String) (users : List Employee) : ℚ :=
  match users.find? (fun u => u.id == employee_id) with
  | none => 4 / 5
  | some _ => 4 / 5

/-- The `weights` dict of `calculate_assignment_score`. -/
structure Weights where
  fairness : ℚ
  availability : ℚ
  reliability : ℚ
deriving DecidableEq

/-- `calculate_assignment_score`: the weighted sum of the three soft scores;
`none` embeds the Python default `weights=None`, replaced by
`{fairness: 0.45, availability: 0.35, reliability: 0.20}`. -/
def calculate_assignment_score (employee_id : String) (shift : Shift)
    (current_assignments : AssignMap) (all_events : List Shift)
    (availabilities : List Availability) (users : List Employee)
    (weights : Option Weights) : ℚ :=
  let w := weights.getD ⟨45 / 100, 35 / 100, 20 / 100⟩
  let fairness := calculate_fairness_score employee_id current_assignments all_events
  let availability := calculate_availability_match_score employee_id shift availabilities
  let reliability := calculate_reliability_score employee_id users
  fairness * w.fairness + availability * w.availability + reliability * w.reliability

/-- Round to the nearest integer, halves to even — the semantics of the
Python built-in `round`. -/
def roundHalfToEven (q : ℚ) : ℤ :=
  let f := ⌊q⌋
  let r := q - (f : ℚ)
  if r < 1 / 2 then f
  else if 1 / 2 < r then f + 1
  else if f % 2 = 0 then f else f + 1

/-- `round(x, 2)`. -/
def round2 (q : ℚ) : ℚ := ((roundHalfToEven (q * 100) : ℤ) : ℚ) / 100

/-- A candidate record returned by `suggest_assignments`: employee id and
username, total score, the rounded score breakdown, and the reason texts. -/
structure Candidate where
  employee_id : String
  username : String
  score : ℚ
  fairness : ℚ
  availability : ℚ
  reliability : ℚ
  reasons : List String
deriving DecidableEq

/-- The candidate-construction loop of `suggest_assignments`: for every
employee with a non-empty id that passes all hard constraints, the scored
candidate record in employee-list order. -/
def buildCandidates (shift : Shift) (employees : List Employee)
    (all_events : List Shift) (availabilities : List Availability)
    (current_assignments : AssignMap) : List Candidate :=
  let valid_employees := employees.filter (fun e => e.id != "")
  valid_employees.filterMap (fun emp =>
    let emp_id := emp.id
    let check := check_all_hard_constraints emp_id shift current_assignments all_events availabilities
    if !check.1 then none
    else
      let score := calculate_assignment_score emp_id shift current_assignments
        all_events availabilities employees none
      let fairness := calculate_fairness_score emp_id current_assignments all_events
      let availability := calculate_availability_match_score emp_id shift availabilities
      let reliability := calculate_reliability_score emp_id employees
      let reasons :=
        (if fairness > 7 / 10 then ["Has fewer hours than average"] else []) ++
        (if availability > 9 / 10 then ["Shift is in preferred availability window"] else []) ++
        (if reliability > 85 / 100 then ["Good attendance history"] else [])
      some { employee_id := emp_id
             username := emp.username
             score := score
             fairness := round2 fairness
             availability := round2 availability
             reliability := round2 reliability
             reasons := if reasons.isEmpty then ["Meets all requirements"] else reasons })

/-- Stable insertion of a candidate into a descending-by-score list: the
inserted element goes before every element of equal or smaller score, as the
element it embeds precedes them all in the unsorted list. -/
def insertCand (x : Candidate) : List Candidate → List Candidate
  | [] => [x]
  | y :: ys => if y.score ≤ x.score then x :: y :: ys else y :: insertCand x ys

/-- `candidates.sort(key=lambda x: x[.score], reverse=True)`: the stable
descending sort of CPython, as a stable insertion sort. -/
def sortCandidates : List Candidate → List Candidate
  | [] => []
  | x :: xs => insertCand x (sortCandidates xs)

/-- `suggest_assignments`: build the eligible scored candidates, sort them
stably by descending total score, return the first `count`. -/
def suggest_assignments (shift : Shift) (employees : List Employee)
    (all_events : List Shift) (availabilities : List Availability)
    (current_assignments : AssignMap) (count : ℕ) : List Candidate :=
  if employees.isEmpty then []
  else if (employees.filter (fun e => e.id != "")).isEmpty then []
  else
    (sortCandidates
      (buildCandidates shift employees all_events availabilities current_assignments)).take
      count

/-- The suggestion-consuming loop of `auto_assign_shift`: walk the ranked
suggestions, stopping once `capacity_to_fill` ids are collected, skipping
ids outside the employee set, and otherwise appending the shift id to the
suggested employee entry of the assignment map. -/
def autoAssignLoop (shift_id : String) (employee_ids : List String)
    (capacity_to_fill : ℕ) :
    List Candidate → List String → AssignMap → List String × AssignMap
  | [], assigned, st => (assigned, st)
  | s :: rest, assigned, st =>
    if capacity_to_fill ≤ assigned.length then (assigned, st)
    else if !(strIn s.employee_id employee_ids) then
      autoAssignLoop shift_id employee_ids capacity_to_fill rest assigned st
    else
      autoAssignLoop shift_id employee_ids capacity_to_fill rest
        (assigned ++ [s.employee_id]) (assignAppend st s.employee_id shift_id)

/-- `auto_assign_shift`: rank all employees for the shift, commit the top
suggestions into the assignment map until `capacity_to_fill` slots are
filled (`none` embeds the Python default, replaced by the shift capacity),
and report any shortfall as an error value.  The returned map is the
post-call content of the `current_assignments` dict the Python function
mutates in place. -/
def auto_assign_shift (shift : Shift) (employees : List Employee)
    (all_events : List Shift) (availabilities : List Availability)
    (current_assignments : AssignMap) (capacity_to_fill : Option ℕ) :
    List String × List Msg × AssignMap :=
  let cap := capacity_to_fill.getD shift.capacity
  let suggestions := suggest_assignments shift employees all_events availabilities
    current_assignments employees.length
  let employee_ids := employees.filterMap (fun e => if e.id != "" then some e.id else none)
  let r := autoAssignLoop shift.id employee_ids cap suggestions [] current_assignments
  let errors := if r.1.length < cap then [Msg.couldNotFill (cap - r.1.length)] else []
  (r.1, errors, r.2)

/-- The number of employees holding a given shift id in the assignment map
(the count `check_capacity_constraint` compares against the capacity). -/
def countAssigned (shift_id : String) (m : AssignMap) : ℕ :=
  (m.filter (fun p => strIn shift_id p.2)).length

/-- The set of shift ids held by an employee, read off the `assigned` lists
of the shift records (the authoritative representation per the data model). -/
def swapHeldShifts (employee_id : String) (all_shifts : List Shift) : List String :=
  (all_shifts.filter (fun s => strIn employee_id s.assigned)).map (fun s => s.id)

/-- The hypothetical assignment state used to validate one side of a swap:
the employee holds their current shifts with the shift they give away
removed (the shift they would receive is the candidate under check). -/
def swapHypState (employee_id removed_shift_id : String)
    (all_shifts : List Shift) : AssignMap :=
  [(employee_id,
    (swapHeldShifts employee_id all_shifts).filter (fun i => i != removed_shift_id))]

/-- A swap-validation issue: the violation message tagged with the employee
whose hypothetical placement produced it. -/
structure SwapIssue where
  employee_id : String
  message : Option Msg
deriving DecidableEq

/-- Modelled from the spec: `ShiftSwapValidator.validate_swap`.  The class is
imported by `controllers/events.py` from `utils.shift_validator` but its
definition is missing from the sources; per spec section 4.5 the validator
simulates the exchange by constructing the two hypothetical assignment
states (each side minus its own original shift) and runs the hard-constraint
checker of section 4.2 independently on each new placement, tagging every
violation with the side it came from; the swap is valid only when both
halves pass. -/
def validate_swap (initiator_id target_id initiator_shift_id target_shift_id : String)
    (all_shifts : List Shift) (availabilities : List Availability) :
    Bool × List SwapIssue :=
  match all_shifts.find? (fun s => s.id == initiator_shift_id),
        all_shifts.find? (fun s => s.id == target_shift_id) with
  | some initiator_shift, some target_shift =>
    let r1 := check_all_hard_constraints initiator_id target_shift
      (swapHypState initiator_id initiator_shift_id all_shifts) all_shifts availabilities
    let r2 := check_all_hard_constraints target_id initiator_shift
      (swapHypState target_id target_shift_id all_shifts) all_shifts availabilities
    (r1.1 && r2.1,
      r1.2.map (fun m => SwapIssue.mk initiator_id m) ++
      r2.2.map (fun m => SwapIssue.mk target_id m))
  | _, _ => (false, [])

end ILP

namespace SV

/-- Gregorian leap-year rule, as in the Python `datetime` calendar. -/
def isLeapYear (y : ℕ) : Bool :=
  (y % 4 == 0 && y % 100 != 0) || (y % 400 == 0)

/-- Number of days of a month of the proleptic Gregorian calendar. -/
def daysInMonth (y m : ℕ) : ℕ :=
  if m == 2 then (if isLeapYear y then 29 else 28)
  else if m == 4 || m == 6 || m == 9 || m == 11 then 30
  else 31

/-- A parsed `datetime` value at minute resolution: calendar date fields
plus the minute of the day.  A value is well-formed when `1 ≤ month ≤ 12`,
`1 ≤ day ≤ daysInMonth year month` and `minute < 1440`, as `datetime`
guarantees for every constructed instance. -/
structure DT where
  year : ℕ
  month : ℕ
  day : ℕ
  minute : ℕ
deriving DecidableEq

/-- Days of the year before the first of the given month. -/
def daysBeforeMonth (y m : ℕ) : ℕ :=
  ((List.range (m - 1)).map (fun i => daysInMonth y (i + 1))).sum

/-- Days before January 1 of the given year, from year 1 (the ordinal count
of the Python `datetime` module). -/
def daysBeforeYear (y : ℕ) : ℕ :=
  365 * (y - 1) + (y - 1) / 4 - (y - 1) / 100 + (y - 1) / 400

/-- Minutes from the epoch of the proleptic calendar; on well-formed values
this order and difference agree with `datetime` comparison and
subtraction. -/
def toMinutes (d : DT) : ℕ :=
  1440 * (daysBeforeYear d.year + daysBeforeMonth d.year d.month + (d.day - 1)) + d.minute

/-- An event record as consumed by `shift_validator.py`: timestamps are the
parse results of the `start` / `end` strings, `assigned` the employee ids on
the event (the Python code also accepts a comma-joined string and splits it
into this same list). -/
structure Event where
  id : String
  title : String
  start : Option DT
  «end» : Option DT
  assigned : List String
deriving DecidableEq

/-- Conflict severity tag. -/
inductive Sev where
  | error
  | warning
deriving DecidableEq

/-- Structured form of the conflict message strings of
`validate_assignment`. -/
inductive CMsg where
  | invalidEventTime
  | overlapsWith (title : String)
  | breakBeforeNext (breakHours minBreak : ℚ)
  | breakAfterPrev (breakHours minBreak : ℚ)
  | tooManyDailyHours (total maxHours : ℚ)
deriving DecidableEq

/-- A conflict record: severity and message. -/
structure Conflict where
  severity : Sev
  message : CMsg
deriving DecidableEq

/-- `(end - start).total_seconds() / 3600` at minute resolution. -/
def durationHours (s e : DT) : ℚ :=
  (((toMinutes e : ℤ) - (toMinutes s : ℤ) : ℤ) : ℚ) * 60 / 3600

/-- `d.replace(day=d.day + 1)`: succeeds exactly when the incremented day
still exists in the month, the `ValueError` branch otherwise. -/
def replaceDaySucc (d : DT) : Option DT :=
  if d.day + 1 ≤ daysInMonth d.year d.month then some { d with day := d.day + 1 }
  else none

/-- The overnight normalization of `validate_assignment`: when the end
precedes the start, roll the end forward via `replace(day=day + 1)`; the
uncaught `ValueError` of `replace` is the `Except.error` outcome. -/
def normalizeEnd (s e : DT) : Except String DT :=
  if toMinutes e < toMinutes s then
    match replaceDaySucc e with
    | some e2 => Except.ok e2
    | none => Except.error "ValueError: day is out of range for month"
  else Except.ok e

/-- An entry of the `employee_assignments` list: the event with its parsed,
normalized times and duration. -/
structure EA where
  event : Event
  start : DT
  «end» : DT
  duration : ℚ
deriving DecidableEq

/-- The `employee_assignments` construction loop of `validate_assignment`:
events other than the one being assigned that list the employee, with
parseable times, normalized; a `ValueError` raised while normalizing
propagates. -/
def collectAssignments (employee_id : String) (event_id : String) :
    List Event → Except String (List EA)
  | [] => Except.ok []
  | oe :: rest =>
    if oe.id == event_id then collectAssignments employee_id event_id rest
    else if strIn employee_id oe.assigned then
      match oe.start, oe.«end» with
      | some ostart, some oend0 =>
        (match normalizeEnd ostart oend0 with
         | Except.error m => Except.error m
         | Except.ok oend =>
           match collectAssignments employee_id event_id rest with
           | Except.error m => Except.error m
           | Except.ok eas =>
             Except.ok (EA.mk oe ostart oend (durationHours ostart oend) :: eas))
      | _, _ => collectAssignments employee_id event_id rest
    else collectAssignments employee_id event_id rest

/-- `validate_assignment`: parse the event times (failing closed on a parse
error), normalize an overnight end, collect the employee assignments, then
run the overlap, break-time and daily-hours checks, returning
`(not has_errors, conflicts)`.  `Except.error` embeds an uncaught
`ValueError` escaping the function. -/
def validate_assignment (employee_id : String) (event : Event)
    (all_events : List Event) (min_break_hours : ℚ) (max_daily_hours : ℚ) :
    Except String (Bool × List Conflict) :=
  match event.start, event.«end» with
  | some event_start, some eend0 =>
    (match normalizeEnd event_start eend0 with
     | Except.error m => Except.error m
     | Except.ok event_end =>
       let event_duration := durationHours event_start event_end
       match collectAssignments employee_id event.id all_events with
       | Except.error m => Except.error m
       | Except.ok employee_assignments =>
         let conflicts1 := employee_assignments.filterMap (fun a =>
           if ¬ (toMinutes event_end ≤ toMinutes a.start ∨
                 toMinutes a.«end» ≤ toMinutes event_start) then
             some (Conflict.mk Sev.error (CMsg.overlapsWith a.event.title))
           else none)
         let conflicts2 := (employee_assignments.map (fun a =>
           (if toMinutes event_end ≤ toMinutes a.start then
             let break_time := (((toMinutes a.start : ℤ) - (toMinutes event_end : ℤ) : ℤ) : ℚ) * 60 / 3600
             if break_time < min_break_hours then
               [Conflict.mk Sev.warning (CMsg.breakBeforeNext break_time min_break_hours)]
             else []
           else []) ++
           (if toMinutes a.«end» ≤ toMinutes event_start then
             let break_time := (((toMinutes event_start : ℤ) - (toMinutes a.«end» : ℤ) : ℤ) : ℚ) * 60 / 3600
             if break_time < min_break_hours then
               [Conflict.mk Sev.warning (CMsg.breakAfterPrev break_time min_break_hours)]
             else []
           else []))).flatten
         let daily_hours := event_duration +
           ((employee_assignments.filter (fun a =>
               (a.start.year, a.start.month, a.start.day) ==
               (event_start.year, event_start.month, event_start.day))).map
             (fun a => a.duration)).sum
         let conflicts3 :=
           if daily_hours > max_daily_hours then
             [Conflict.mk Sev.warning (CMsg.tooManyDailyHours daily_hours max_daily_hours)]
           else []
         let conflicts := conflicts1 ++ conflicts2 ++ conflicts3
         let has_errors := conflicts.any (fun c => c.severity == Sev.error)
         Except.ok (!has_errors, conflicts))
  | _, _ => Except.ok (false, [Conflict.mk Sev.error CMsg.invalidEventTime])

end SV

namespace ILP

/-- A failed availability check forces `check_all_hard_constraints` to fail
and puts the availability message object among the collected errors. -/
lemma check_all_false_of_availability_false (employee_id : String) (shift : Shift)
    (cur : AssignMap) (evs : List Shift) (avails : List Availability)
    (h : (check_availability_constraint employee_id shift avails).1 = false) :
    (check_all_hard_constraints employee_id shift cur evs avails).1 = false ∧
    (check_availability_constraint employee_id shift avails).2 ∈
      (check_all_hard_constraints employee_id shift cur evs avails).2 := by
  unfold check_all_hard_constraints
  simp only [appendErr, h, if_false, Bool.false_eq_true]
  constructor
  · simp
  · simp

end ILP

/-- C7: for shifts with parseable timestamps, `shifts_overlap` is symmetric,
a pair touching end-to-start does not overlap, and overlap holds exactly
when the first starts before the second ends and ends after the second
starts (half-open interval semantics). -/
theorem shifts_overlap_spec (s1 s2 : ILP.Shift) (a1 b1 a2 b2 : ℤ)
    (h1 : ILP.parse_datetime s1.start = some a1)
    (h2 : ILP.parse_datetime s1.«end» = some b1)
    (h3 : ILP.parse_datetime s2.start = some a2)
    (h4 : ILP.parse_datetime s2.«end» = some b2) :
    ILP.shifts_overlap s1 s2 = ILP.shifts_overlap s2 s1
    ∧ (b1 = a2 → ILP.shifts_overlap s1 s2 = false)
    ∧ (ILP.shifts_overlap s1 s2 = true ↔ a1 < b2 ∧ b1 > a2) := by
  simp only [ILP.shifts_overlap, h1, h2, h3, h4]
  refine ⟨by simp only [decide_eq_decide]; omega, ?_, ?_⟩
  · intro h; subst h; simp
  · simp; omega

/-- Witness for C7 at two concrete touching shifts. -/
theorem shifts_overlap_spec_witness :
    ILP.shifts_overlap (ILP.Shift.mk "a" "A" (some 0) (some 3600) 1 [])
        (ILP.Shift.mk "b" "B" (some 3600) (some 7200) 1 []) =
      ILP.shifts_overlap (ILP.Shift.mk "b" "B" (some 3600) (some 7200) 1 [])
        (ILP.Shift.mk "a" "A" (some 0) (some 3600) 1 [])
    ∧ ((3600 : ℤ) = 3600 →
        ILP.shifts_overlap (ILP.Shift.mk "a" "A" (some 0) (some 3600) 1 [])
          (ILP.Shift.mk "b" "B" (some 3600) (some 7200) 1 []) = false)
    ∧ (ILP.shifts_overlap (ILP.Shift.mk "a" "A" (some 0) (some 3600) 1 [])
          (ILP.Shift.mk "b" "B" (some 3600) (some 7200) 1 []) = true ↔
        (0 : ℤ) < 7200 ∧ (3600 : ℤ) > 3600) :=
  shifts_overlap_spec (ILP.Shift.mk "a" "A" (some 0) (some 3600) 1 [])
    (ILP.Shift.mk "b" "B" (some 3600) (some 7200) 1 [])
    0 3600 3600 7200 rfl rfl rfl rfl

/-- C9: with a one-hour minimum break and an assigned shift ending at 14:00
(instant 50400), a candidate starting 14:30 (52200) fails the break check
with a half-hour gap, while a candidate starting 15:00 (54000) passes since
a gap of exactly one hour satisfies `gap >= min_break_hours`. -/
theorem break_time_constraint_examples :
    (ILP.check_break_time_constraint "E"
      (ILP.Shift.mk "s2" "S2" (some 52200) (some 64800) 1 [])
      [("E", ["s1"])]
      [ILP.Shift.mk "s1" "S1" (some 36000) (some 50400) 1 []] 1).1 = false ∧
    (ILP.check_break_time_constraint "E"
      (ILP.Shift.mk "s3" "S3" (some 54000) (some 64800) 1 [])
      [("E", ["s1"])]
      [ILP.Shift.mk "s1" "S1" (some 36000) (some 50400) 1 []] 1).1 = true := by
  constructor
  · norm_num [ILP.check_break_time_constraint, ILP.assignGetD, ILP.parse_datetime,
      strIn, List.filter, List.find?, List.findSome?, List.any]
  · norm_num [ILP.check_break_time_constraint, ILP.assignGetD, ILP.parse_datetime,
      strIn, List.filter, List.find?, List.findSome?, List.any]

/-- C6: an employee with zero availability windows in the availability list
fails `check_all_hard_constraints` regardless of the candidate shift or
assignment state, with the no-availability violation reported. -/
theorem no_availability_never_accepted (employee_id : String) (shift : ILP.Shift)
    (cur : ILP.AssignMap) (evs : List ILP.Shift) (avails : List ILP.Availability)
    (h : avails.filter (fun a => a.user_id == employee_id) = []) :
    (ILP.check_all_hard_constraints employee_id shift cur evs avails).1 = false ∧
    some ILP.Msg.noAvailabilityWindow ∈
      (ILP.check_all_hard_constraints employee_id shift cur evs avails).2 := by
  have h4 : ILP.check_availability_constraint employee_id shift avails =
      (false, some ILP.Msg.noAvailabilityWindow) := by
    simp [ILP.check_availability_constraint, h]
  have hh := ILP.check_all_false_of_availability_false employee_id shift cur evs avails
    (by rw [h4])
  rwa [h4] at hh

/-- Witness for C6: a concrete employee whose id matches no availability
record is rejected. -/
theorem no_availability_never_accepted_witness :
    (ILP.check_all_hard_constraints "X" (ILP.Shift.mk "s" "S" (some 0) (some 3600) 1 [])
      [] [] [ILP.Availability.mk "Y" (some 0) (some 10000)]).1 = false ∧
    some ILP.Msg.noAvailabilityWindow ∈
      (ILP.check_all_hard_constraints "X" (ILP.Shift.mk "s" "S" (some 0) (some 3600) 1 [])
        [] [] [ILP.Availability.mk "Y" (some 0) (some 10000)]).2 :=
  no_availability_never_accepted "X" (ILP.Shift.mk "s" "S" (some 0) (some 3600) 1 [])
    [] [] [ILP.Availability.mk "Y" (some 0) (some 10000)] rfl

/-- C2 counterexample: with three employees whose prior assigned hours are
0, 10 and 20, the mean is 10, so the 10-hour employee has ratio 1 and the
20-hour employee ratio 2 — both fairness scores clamp to 0 and the claimed
strict inequality `fairness(10h) > fairness(20h)` fails. -/
theorem fairness_strict_order_cex :
    ILP.employeeHoursList [("a", ([] : List String)), ("b", ["sb"]), ("c", ["sc"])]
      [ILP.Shift.mk "sb" "SB" (some 0) (some 36000) 1 [],
       ILP.Shift.mk "sc" "SC" (some 0) (some 72000) 1 []]
      = [("a", 0), ("b", 10), ("c", 20)] ∧
    ILP.calculate_fairness_score "b"
      [("a", ([] : List String)), ("b", ["sb"]), ("c", ["sc"])]
      [ILP.Shift.mk "sb" "SB" (some 0) (some 36000) 1 [],
       ILP.Shift.mk "sc" "SC" (some 0) (some 72000) 1 []] = 0 ∧
    ILP.calculate_fairness_score "c"
      [("a", ([] : List String)), ("b", ["sb"]), ("c", ["sc"])]
      [ILP.Shift.mk "sb" "SB" (some 0) (some 36000) 1 [],
       ILP.Shift.mk "sc" "SC" (some 0) (some 72000) 1 []] = 0 ∧
    ¬ (ILP.calculate_fairness_score "b"
        [("a", ([] : List String)), ("b", ["sb"]), ("c", ["sc"])]
        [ILP.Shift.mk "sb" "SB" (some 0) (some 36000) 1 [],
         ILP.Shift.mk "sc" "SC" (some 0) (some 72000) 1 []] >
       ILP.calculate_fairness_score "c"
        [("a", ([] : List String)), ("b", ["sb"]), ("c", ["sc"])]
        [ILP.Shift.mk "sb" "SB" (some 0) (some 36000) 1 [],
         ILP.Shift.mk "sc" "SC" (some 0) (some 72000) 1 []]) := by
  refine ⟨?_, ?_, ?_, ?_⟩ <;>
  · simp [ILP.calculate_fairness_score, ILP.employeeHoursList, ILP.lookupHours,
      ILP.get_shift_duration_hours, ILP.parse_datetime, strIn,
      List.filter, List.find?, List.map, List.sum, List.any]
    try norm_num

/-- C2 amended: at prior hours 0, 10 and 20 the fairness scores are ordered
`fairness(0h) > fairness(10h) ≥ fairness(20h)`; the last comparison is an
equality (both 0) because the score clamps at 0 for employees at or above
the mean ratio 1 and 2 respectively. -/
theorem fairness_order_amended :
    ILP.calculate_fairness_score "a"
      [("a", ([] : List String)), ("b", ["sb"]), ("c", ["sc"])]
      [ILP.Shift.mk "sb" "SB" (some 0) (some 36000) 1 [],
       ILP.Shift.mk "sc" "SC" (some 0) (some 72000) 1 []] = 1 ∧
    ILP.calculate_fairness_score "a"
      [("a", ([] : List String)), ("b", ["sb"]), ("c", ["sc"])]
      [ILP.Shift.mk "sb" "SB" (some 0) (some 36000) 1 [],
       ILP.Shift.mk "sc" "SC" (some 0) (some 72000) 1 []] >
    ILP.calculate_fairness_score "b"
      [("a", ([] : List String)), ("b", ["sb"]), ("c", ["sc"])]
      [ILP.Shift.mk "sb" "SB" (some 0) (some 36000) 1 [],
       ILP.Shift.mk "sc" "SC" (some 0) (some 72000) 1 []] ∧
    ILP.calculate_fairness_score "b"
      [("a", ([] : List String)), ("b", ["sb"]), ("c", ["sc"])]
      [ILP.Shift.mk "sb" "SB" (some 0) (some 36000) 1 [],
       ILP.Shift.mk "sc" "SC" (some 0) (some 72000) 1 []] ≥
    ILP.calculate_fairness_score "c"
      [("a", ([] : List String)), ("b", ["sb"]), ("c", ["sc"])]
      [ILP.Shift.mk "sb" "SB" (some 0) (some 36000) 1 [],
       ILP.Shift.mk "sc" "SC" (some 0) (some 72000) 1 []] := by
  refine ⟨?_, ?_, ?_⟩ <;>
  · simp [ILP.calculate_fairness_score, ILP.employeeHoursList, ILP.lookupHours,
      ILP.get_shift_duration_hours, ILP.parse_datetime, strIn,
      List.filter, List.find?, List.map, List.sum, List.any]
    try norm_num

/-- C8: on an overnight event whose end falls on the last calendar day of a
month (Jan 31, 23:00 to 01:00) the roll-forward `replace(day=day + 1)` of
`validate_assignment` raises an uncaught `ValueError` instead of returning a
result; on a mid-month overnight event (Jan 15) the normalization works and
a `(valid, conflicts)` pair is returned. -/
theorem validate_assignment_month_end_valueerror :
    SV.validate_assignment "E"
      (SV.Event.mk "e1" "Night" (some (SV.DT.mk 2025 1 31 1380))
        (some (SV.DT.mk 2025 1 31 60)) ["E"]) [] 1 12
      = Except.error "ValueError: day is out of range for month" ∧
    SV.validate_assignment "E"
      (SV.Event.mk "e2" "Night" (some (SV.DT.mk 2025 1 15 1380))
        (some (SV.DT.mk 2025 1 15 60)) ["E"]) [] 1 12
      = Except.ok (true, []) := by
  constructor
  · rfl
  · norm_num [SV.validate_assignment, SV.normalizeEnd, SV.replaceDaySucc,
      SV.collectAssignments, SV.durationHours, SV.toMinutes, SV.daysBeforeYear,
      SV.daysBeforeMonth, SV.daysInMonth, SV.isLeapYear]

namespace ILP

lemma mem_insertCand {x a : Candidate} {l : List Candidate} :
    a ∈ insertCand x l ↔ a = x ∨ a ∈ l := by
  induction l with
  | nil => simp [insertCand]
  | cons y ys ih =>
    simp only [insertCand]
    split
    · simp [List.mem_cons]
      try tauto
    · simp [List.mem_cons, ih]
      try tauto

lemma insertCand_pairwise {x : Candidate} {l : List Candidate}
    (h : l.Pairwise (fun a b => b.score ≤ a.score)) :
    (insertCand x l).Pairwise (fun a b => b.score ≤ a.score) := by
  induction l with
  | nil => simp [insertCand]
  | cons y ys ih =>
    rcases List.pairwise_cons.mp h with ⟨hy, hys⟩
    simp only [insertCand]
    split
    next hcond =>
      refine List.pairwise_cons.mpr ⟨?_, h⟩
      intro b hb
      rcases List.mem_cons.mp hb with rfl | hb
      · exact hcond
      · exact le_trans (hy b hb) hcond
    next hcond =>
      refine List.pairwise_cons.mpr ⟨?_, ih hys⟩
      intro b hb
      rcases mem_insertCand.mp hb with rfl | hb
      · exact le_of_not_le hcond
      · exact hy b hb

lemma sortCandidates_pairwise (l : List Candidate) :
    (sortCandidates l).Pairwise (fun a b => b.score ≤ a.score) := by
  induction l with
  | nil => simp [sortCandidates]
  | cons x xs ih =>
    simp only [sortCandidates]
    exact insertCand_pairwise ih

lemma insertCand_filter_score (x : Candidate) (l : List Candidate) (q : ℚ) :
    (insertCand x l).filter (fun c => c.score == q) =
      (if x.score == q then [x] else []) ++ l.filter (fun c => c.score == q) := by
  induction l with
  | nil =>
    by_cases hxq : (x.score == q) = true <;> simp [insertCand, List.filter, hxq]
  | cons y ys ih =>
    simp only [insertCand]
    split
    next hc =>
      by_cases hxq : (x.score == q) = true <;>
        simp [List.filter_cons, hxq]
    next hc =>
      by_cases hxq : (x.score == q) = true
      · have hxe : x.score = q := by exact_mod_cast (beq_iff_eq.mp hxq)
        have hy : (y.score == q) = false := by
          apply beq_eq_false_iff_ne.mpr
          intro hye
          exact hc (le_of_eq (hye.trans hxe.symm))
        simp [List.filter_cons, hxq, hy, ih]
      · have hxq2 : (x.score == q) = false := by
          simpa using hxq
        by_cases hyq : (y.score == q) = true <;>
          simp [List.filter_cons, hxq2, hyq, ih]

lemma sortCandidates_filter_score (l : List Candidate) (q : ℚ) :
    (sortCandidates l).filter (fun c => c.score == q) =
      l.filter (fun c => c.score == q) := by
  induction l with
  | nil => rfl
  | cons x xs ih =>
    by_cases hxq : (x.score == q) = true <;>
      simp [sortCandidates, insertCand_filter_score, ih, List.filter_cons, hxq]

end ILP

/-- C5 amended: the suggestion list is sorted descending by total score, has
at most `count` entries, equals the first `count` entries of the stable sort
of the built candidates, is deterministic (identical calls give identical
lists), and the stable sort preserves, for every score value, the input
order of the candidates attaining it — ties are broken by employee-list
order, not by employee id. -/
theorem suggest_assignments_order (shift : ILP.Shift) (employees : List ILP.Employee)
    (all_events : List ILP.Shift) (avails : List ILP.Availability)
    (cur : ILP.AssignMap) (count : ℕ) :
    (ILP.suggest_assignments shift employees all_events avails cur count).Pairwise
      (fun a b => b.score ≤ a.score)
    ∧ (ILP.suggest_assignments shift employees all_events avails cur count).length ≤ count
    ∧ ILP.suggest_assignments shift employees all_events avails cur count =
        ILP.suggest_assignments shift employees all_events avails cur count
    ∧ ILP.suggest_assignments shift employees all_events avails cur count =
        (ILP.sortCandidates
          (ILP.buildCandidates shift employees all_events avails cur)).take count
    ∧ ∀ q : ℚ,
        (ILP.sortCandidates (ILP.buildCandidates shift employees all_events avails cur)).filter
            (fun c => c.score == q) =
          (ILP.buildCandidates shift employees all_events avails cur).filter
            (fun c => c.score == q) := by
  refine ⟨?_, ?_, rfl, ?_, fun q => ILP.sortCandidates_filter_score _ q⟩
  · unfold ILP.suggest_assignments
    split
    · simp
    · split
      · simp
      · exact List.Pairwise.sublist (List.take_sublist _ _) (ILP.sortCandidates_pairwise _)
  · unfold ILP.suggest_assignments
    split
    · simp
    · split
      · simp
      · exact List.length_take_le _ _
  · unfold ILP.suggest_assignments
    split
    next hE =>
      rw [List.isEmpty_iff] at hE
      simp [ILP.buildCandidates, hE, ILP.sortCandidates]
    · split
      next hV =>
        rw [List.isEmpty_iff] at hV
        simp [ILP.buildCandidates, hV, ILP.sortCandidates]
      · rfl

/-- C5 counterexample: two employees with identical scores (147/200) listed
as ["b", "a"] are returned in that input order by `suggest_assignments` —
the stable sort keeps ties in employee-list order, not ascending employee
id, although "a" < "b". -/
theorem suggest_tiebreak_cex :
    (ILP.suggest_assignments (ILP.Shift.mk "s" "S" (some 0) (some 3600) 1 [])
      [ILP.Employee.mk "b" "bob", ILP.Employee.mk "a" "alice"]
      [ILP.Shift.mk "s" "S" (some 0) (some 3600) 1 []]
      [ILP.Availability.mk "b" (some 0) (some 10000),
       ILP.Availability.mk "a" (some 0) (some 10000)]
      [] 5).map (fun c => c.employee_id) = ["b", "a"] ∧
    (ILP.suggest_assignments (ILP.Shift.mk "s" "S" (some 0) (some 3600) 1 [])
      [ILP.Employee.mk "b" "bob", ILP.Employee.mk "a" "alice"]
      [ILP.Shift.mk "s" "S" (some 0) (some 3600) 1 []]
      [ILP.Availability.mk "b" (some 0) (some 10000),
       ILP.Availability.mk "a" (some 0) (some 10000)]
      [] 5).map (fun c => c.score) = [147 / 200, 147 / 200] ∧
    ("a" : String) < "b" := by
  refine ⟨?_, ?_, ?_⟩
  · simp [ILP.suggest_assignments, ILP.buildCandidates, ILP.check_all_hard_constraints,
      ILP.check_no_overlap_constraint, ILP.check_break_time_constraint,
      ILP.check_max_hours_per_day_constraint, ILP.check_availability_constraint,
      ILP.appendErr, ILP.assignGetD, ILP.parse_datetime, ILP.get_shift_date,
      ILP.get_shift_duration_hours, ILP.shifts_overlap, strIn,
      ILP.calculate_assignment_score, ILP.calculate_fairness_score,
      ILP.employeeHoursList, ILP.lookupHours, ILP.calculate_availability_match_score,
      ILP.calculate_reliability_score, ILP.round2, ILP.roundHalfToEven,
      ILP.sortCandidates, ILP.insertCand,
      List.filter, List.find?, List.findSome?, List.map,
      List.filterMap, List.sum, List.any, List.isEmpty, List.take,
      Option.toList, Option.getD]
  · simp [ILP.suggest_assignments, ILP.buildCandidates, ILP.check_all_hard_constraints,
      ILP.check_no_overlap_constraint, ILP.check_break_time_constraint,
      ILP.check_max_hours_per_day_constraint, ILP.check_availability_constraint,
      ILP.appendErr, ILP.assignGetD, ILP.parse_datetime, ILP.get_shift_date,
      ILP.get_shift_duration_hours, ILP.shifts_overlap, strIn,
      ILP.calculate_assignment_score, ILP.calculate_fairness_score,
      ILP.employeeHoursList, ILP.lookupHours, ILP.calculate_availability_match_score,
      ILP.calculate_reliability_score, ILP.round2, ILP.roundHalfToEven,
      ILP.sortCandidates, ILP.insertCand,
      List.filter, List.find?, List.findSome?, List.map,
      List.filterMap, List.sum, List.any, List.isEmpty, List.take,
      Option.toList, Option.getD]
    try norm_num
  · simp [String.lt_iff_toList_lt]
    decide

namespace ILP

/-- Unfolding of `countAssigned` over a head entry. -/
lemma countAssigned_cons (sid : String) (p : String × List String) (rest : AssignMap) :
    countAssigned sid (p :: rest) =
      (if strIn sid p.2 then 1 else 0) + countAssigned sid rest := by
  by_cases h : strIn sid p.2 = true <;>
    simp [countAssigned, List.filter_cons, h, Nat.add_comm]

/-- One dict append raises the holder count of the appended shift id by at
most one. -/
lemma countAssigned_assignAppend (st : AssignMap) (k v : String) :
    countAssigned v (assignAppend st k v) ≤ countAssigned v st + 1 := by
  induction st with
  | nil => simp [assignAppend, countAssigned, List.filter, strIn, List.any]
  | cons p rest ih =>
    simp only [assignAppend]
    split
    next hpk =>
      have h1 : strIn v (p.2 ++ [v]) = true := by simp [strIn]
      rw [countAssigned_cons, countAssigned_cons]
      by_cases h2 : strIn v p.2 = true <;> simp [h1, h2] <;> omega
    next hpk =>
      rw [countAssigned_cons, countAssigned_cons]
      by_cases h2 : strIn v p.2 = true <;> simp [h2] <;> omega

/-- The suggestion loop adds at most the remaining slots to the holder
count of the shift. -/
lemma autoAssignLoop_count (sid : String) (empIds : List String) (cap : ℕ) :
    ∀ (sugg : List Candidate) (assigned : List String) (st : AssignMap),
      countAssigned sid (autoAssignLoop sid empIds cap sugg assigned st).2 ≤
        countAssigned sid st + (cap - assigned.length) := by
  intro sugg
  induction sugg with
  | nil => intro assigned st; simp [autoAssignLoop]
  | cons s rest ih =>
    intro assigned st
    simp only [autoAssignLoop]
    split
    · simp
    next hlen =>
      split
      · exact le_trans (ih assigned st) (by omega)
      · have hc := countAssigned_assignAppend st s.employee_id sid
        have hrec := ih (assigned ++ [s.employee_id]) (assignAppend st s.employee_id sid)
        simp only [List.length_append, List.length_cons, List.length_nil] at hrec
        omega

end ILP

/-- C1 amended: when the incoming assignment state contains no employee
holding the shift, `auto_assign_shift` with the default capacity leaves the
holder count at most the shift capacity.  (With pre-existing holders the
count can exceed the capacity — see the counterexample.) -/
theorem auto_assign_shift_capacity (shift : ILP.Shift) (employees : List ILP.Employee)
    (all_events : List ILP.Shift) (avails : List ILP.Availability) (cur : ILP.AssignMap)
    (h : ILP.countAssigned shift.id cur = 0) :
    ILP.countAssigned shift.id
      (ILP.auto_assign_shift shift employees all_events avails cur none).2.2 ≤
      shift.capacity := by
  unfold ILP.auto_assign_shift
  simp only [Option.getD_none]
  have hl := ILP.autoAssignLoop_count shift.id
    (employees.filterMap (fun e => if e.id != "" then some e.id else none))
    shift.capacity
    (ILP.suggest_assignments shift employees all_events avails cur employees.length)
    [] cur
  simp only [List.length_nil, Nat.sub_zero] at hl
  omega

/-- Witness for the C1 amended theorem at a concrete one-slot shift. -/
theorem auto_assign_shift_capacity_witness :
    ILP.countAssigned "s1"
      (ILP.auto_assign_shift (ILP.Shift.mk "s1" "S1" (some 0) (some 3600) 1 [])
        [ILP.Employee.mk "B" "bob"]
        [ILP.Shift.mk "s1" "S1" (some 0) (some 3600) 1 []]
        [ILP.Availability.mk "B" (some 0) (some 10000)]
        [] none).2.2 ≤ (ILP.Shift.mk "s1" "S1" (some 0) (some 3600) 1 []).capacity :=
  auto_assign_shift_capacity (ILP.Shift.mk "s1" "S1" (some 0) (some 3600) 1 [])
    [ILP.Employee.mk "B" "bob"]
    [ILP.Shift.mk "s1" "S1" (some 0) (some 3600) 1 []]
    [ILP.Availability.mk "B" (some 0) (some 10000)]
    [] rfl

/-- C1 counterexample: a one-slot shift already held by employee "A" in the
incoming state is filled again with employee "B" — `auto_assign_shift` never
consults `check_capacity_constraint`, so two employees end up holding a
shift of capacity 1. -/
theorem auto_assign_overfills_cex :
    (ILP.Shift.mk "s1" "S1" (some 0) (some 3600) 1 []).capacity = 1 ∧
    ILP.countAssigned "s1" [("A", ["s1"])] = 1 ∧
    ILP.countAssigned "s1"
      (ILP.auto_assign_shift (ILP.Shift.mk "s1" "S1" (some 0) (some 3600) 1 [])
        [ILP.Employee.mk "B" "bob"]
        [ILP.Shift.mk "s1" "S1" (some 0) (some 3600) 1 []]
        [ILP.Availability.mk "B" (some 0) (some 10000)]
        [("A", ["s1"])] none).2.2 = 2 := by
  refine ⟨rfl, rfl, ?_⟩
  simp [ILP.auto_assign_shift, ILP.autoAssignLoop, ILP.assignAppend, ILP.countAssigned,
    ILP.suggest_assignments, ILP.buildCandidates, ILP.check_all_hard_constraints,
    ILP.check_no_overlap_constraint, ILP.check_break_time_constraint,
    ILP.check_max_hours_per_day_constraint, ILP.check_availability_constraint,
    ILP.appendErr, ILP.assignGetD, ILP.parse_datetime, ILP.get_shift_date,
    ILP.get_shift_duration_hours, ILP.shifts_overlap, strIn,
    ILP.calculate_assignment_score, ILP.calculate_fairness_score,
    ILP.employeeHoursList, ILP.lookupHours, ILP.calculate_availability_match_score,
    ILP.calculate_reliability_score, ILP.round2, ILP.roundHalfToEven,
    ILP.sortCandidates, ILP.insertCand,
    List.filter, List.find?, List.findSome?, List.map,
    List.filterMap, List.sum, List.any, List.isEmpty, List.take,
    Option.toList, Option.getD]

namespace ILP

/-- Unfolding of `assignGetD` over a head entry. -/
lemma assignGetD_cons (p : String × List String) (rest : AssignMap) (x : String) :
    assignGetD (p :: rest) x = if p.1 == x then p.2 else assignGetD rest x := by
  by_cases h : (p.1 == x) = true <;> simp [assignGetD, List.find?, h]

/-- A dict append for key `k` leaves every other key unchanged. -/
lemma assignGetD_assignAppend_ne (st : AssignMap) (k v x : String) (hx : x ≠ k) :
    assignGetD (assignAppend st k v) x = assignGetD st x := by
  induction st with
  | nil =>
    have hkx : (k == x) = false := beq_eq_false_iff_ne.mpr (Ne.symm hx)
    simp [assignAppend, assignGetD, List.find?, hkx]
  | cons p rest ih =>
    simp only [assignAppend]
    split
    next hpk =>
      have hp1 : p.1 = k := beq_iff_eq.mp hpk
      have hx2 : (p.1 == x) = false := by
        rw [hp1]; exact beq_eq_false_iff_ne.mpr (Ne.symm hx)
      rw [assignGetD_cons, assignGetD_cons]
      simp [hx2]
    next hpk =>
      rw [assignGetD_cons, assignGetD_cons, ih]

/-- The suggestion loop only ever extends the collected id list. -/
lemma autoAssignLoop_assigned_prefix (sid : String) (empIds : List String) (cap : ℕ) :
    ∀ (sugg : List Candidate) (assigned : List String) (st : AssignMap),
      ∃ t, (autoAssignLoop sid empIds cap sugg assigned st).1 = assigned ++ t := by
  intro sugg
  induction sugg with
  | nil => intro a st; exact ⟨[], by simp [autoAssignLoop]⟩
  | cons s rest ih =>
    intro a st
    simp only [autoAssignLoop]
    split
    · exact ⟨[], by simp⟩
    · split
      · exact ih a st
      · obtain ⟨t, ht⟩ := ih (a ++ [s.employee_id]) (assignAppend st s.employee_id sid)
        exact ⟨s.employee_id :: t, by simp [ht]⟩

/-- Entries of employees outside the returned id list survive the loop
unchanged. -/
lemma autoAssignLoop_frame (sid : String) (empIds : List String) (cap : ℕ) :
    ∀ (sugg : List Candidate) (assigned : List String) (st : AssignMap) (x : String),
      x ∉ (autoAssignLoop sid empIds cap sugg assigned st).1 →
      assignGetD (autoAssignLoop sid empIds cap sugg assigned st).2 x = assignGetD st x := by
  intro sugg
  induction sugg with
  | nil => intro a st x hx; simp [autoAssignLoop]
  | cons s rest ih =>
    intro a st x hx
    by_cases h1 : cap ≤ a.length
    · simp only [autoAssignLoop, if_pos h1]
    · by_cases h2 : (!strIn s.employee_id empIds) = true
      · simp only [autoAssignLoop, if_neg h1, if_pos h2] at hx ⊢
        exact ih a st x hx
      · simp only [autoAssignLoop, if_neg h1, if_neg h2] at hx ⊢
        have hxe : x ≠ s.employee_id := by
          obtain ⟨t, ht⟩ := autoAssignLoop_assigned_prefix sid empIds cap rest
            (a ++ [s.employee_id]) (assignAppend st s.employee_id sid)
          intro hcontra
          apply hx
          rw [ht, hcontra]
          simp
        rw [ih (a ++ [s.employee_id]) (assignAppend st s.employee_id sid) x hx]
        exact assignGetD_assignAppend_ne st s.employee_id sid x hxe

/-- When the loop collects no id, the assignment map is untouched. -/
lemma autoAssignLoop_unchanged (sid : String) (empIds : List String) (cap : ℕ) :
    ∀ (sugg : List Candidate) (assigned : List String) (st : AssignMap),
      (autoAssignLoop sid empIds cap sugg assigned st).1 = assigned →
      (autoAssignLoop sid empIds cap sugg assigned st).2 = st := by
  intro sugg
  induction sugg with
  | nil => intro a st _; rfl
  | cons s rest ih =>
    intro a st h
    by_cases h1 : cap ≤ a.length
    · simp only [autoAssignLoop, if_pos h1]
    · by_cases h2 : (!strIn s.employee_id empIds) = true
      · simp only [autoAssignLoop, if_neg h1, if_pos h2] at h ⊢
        exact ih a st h
      · simp only [autoAssignLoop, if_neg h1, if_neg h2] at h ⊢
        exfalso
        obtain ⟨t, ht⟩ := autoAssignLoop_assigned_prefix sid empIds cap rest
          (a ++ [s.employee_id]) (assignAppend st s.employee_id sid)
        have hcontra := ht.symm.trans h
        have := congrArg List.length hcontra
        simp at this

end ILP

/-- C4 amended: `auto_assign_shift` does update the mapping supplied by the
caller in place; what holds is the frame property that the entry of every
employee it did not assign is unchanged, and that the mapping is identical
only when no employee was assigned. -/
theorem auto_assign_shift_frame (shift : ILP.Shift) (employees : List ILP.Employee)
    (all_events : List ILP.Shift) (avails : List ILP.Availability)
    (cur : ILP.AssignMap) (capF : Option ℕ) :
    (∀ x, x ∉ (ILP.auto_assign_shift shift employees all_events avails cur capF).1 →
        ILP.assignGetD (ILP.auto_assign_shift shift employees all_events avails cur capF).2.2 x =
          ILP.assignGetD cur x)
    ∧ ((ILP.auto_assign_shift shift employees all_events avails cur capF).1 = [] →
        (ILP.auto_assign_shift shift employees all_events avails cur capF).2.2 = cur) := by
  constructor
  · intro x hx
    exact ILP.autoAssignLoop_frame _ _ _ _ _ _ x hx
  · intro h
    exact ILP.autoAssignLoop_unchanged _ _ _ _ _ _ h

/-- Witness for the C4 amended theorem: the entry of untouched employee "A"
survives a concrete call that assigns "B". -/
theorem auto_assign_shift_frame_witness :
    ILP.assignGetD
      (ILP.auto_assign_shift (ILP.Shift.mk "s1" "S1" (some 0) (some 3600) 1 [])
        [ILP.Employee.mk "B" "bob"]
        [ILP.Shift.mk "s1" "S1" (some 0) (some 3600) 1 []]
        [ILP.Availability.mk "B" (some 0) (some 10000)]
        [("A", ["s0"])] none).2.2 "A" =
    ILP.assignGetD [("A", ["s0"])] "A" :=
  (auto_assign_shift_frame (ILP.Shift.mk "s1" "S1" (some 0) (some 3600) 1 [])
    [ILP.Employee.mk "B" "bob"]
    [ILP.Shift.mk "s1" "S1" (some 0) (some 3600) 1 []]
    [ILP.Availability.mk "B" (some 0) (some 10000)]
    [("A", ["s0"])] none).1 "A" (by
      simp [ILP.auto_assign_shift, ILP.autoAssignLoop, ILP.assignAppend,
        ILP.suggest_assignments, ILP.buildCandidates, ILP.check_all_hard_constraints,
        ILP.check_no_overlap_constraint, ILP.check_break_time_constraint,
        ILP.check_max_hours_per_day_constraint, ILP.check_availability_constraint,
        ILP.appendErr, ILP.assignGetD, ILP.parse_datetime, ILP.get_shift_date,
        ILP.get_shift_duration_hours, ILP.shifts_overlap, strIn,
        ILP.calculate_assignment_score, ILP.calculate_fairness_score,
        ILP.employeeHoursList, ILP.lookupHours, ILP.calculate_availability_match_score,
        ILP.calculate_reliability_score, ILP.round2, ILP.roundHalfToEven,
        ILP.sortCandidates, ILP.insertCand,
        List.filter, List.find?, List.findSome?, List.map,
        List.filterMap, List.sum, List.any, List.isEmpty, List.take,
        Option.toList, Option.getD])

/-- C4 counterexample: a call that assigns employee "B" leaves the shift id
in the mapping supplied by the caller, which is therefore not the same
mapping as the empty one passed in. -/
theorem auto_assign_mutates_cex :
    (ILP.auto_assign_shift (ILP.Shift.mk "s1" "S1" (some 0) (some 3600) 1 [])
      [ILP.Employee.mk "B" "bob"]
      [ILP.Shift.mk "s1" "S1" (some 0) (some 3600) 1 []]
      [ILP.Availability.mk "B" (some 0) (some 10000)]
      [] none).2.2 = [("B", ["s1"])] ∧
    ([("B", ["s1"])] : ILP.AssignMap) ≠ [] := by
  refine ⟨?_, by simp⟩
  simp [ILP.auto_assign_shift, ILP.autoAssignLoop, ILP.assignAppend,
    ILP.suggest_assignments, ILP.buildCandidates, ILP.check_all_hard_constraints,
    ILP.check_no_overlap_constraint, ILP.check_break_time_constraint,
    ILP.check_max_hours_per_day_constraint, ILP.check_availability_constraint,
    ILP.appendErr, ILP.assignGetD, ILP.parse_datetime, ILP.get_shift_date,
    ILP.get_shift_duration_hours, ILP.shifts_overlap, strIn,
    ILP.calculate_assignment_score, ILP.calculate_fairness_score,
    ILP.employeeHoursList, ILP.lookupHours, ILP.calculate_availability_match_score,
    ILP.calculate_reliability_score, ILP.round2, ILP.roundHalfToEven,
    ILP.sortCandidates, ILP.insertCand,
    List.filter, List.find?, List.findSome?, List.map,
    List.filterMap, List.sum, List.any, List.isEmpty, List.take,
    Option.toList, Option.getD]

namespace ILP

/-- `findSome?` of the constant `none` finds nothing. -/
lemma findSome?_const_none {α β : Type} (l : List α) :
    l.findSome? (fun _ => (none : Option β)) = none := by
  induction l <;> simp [List.findSome?_cons, *]

/-- `find?` with the constant-false predicate finds nothing. -/
lemma find?_const_false {α : Type} (l : List α) :
    l.find? (fun _ => false) = none := by
  induction l <;> simp [List.find?, *]

/-- With an unparseable candidate start the availability check fails closed
on both of its branches. -/
lemma availability_false_of_start_none (employee_id : String) (shift : Shift)
    (avails : List Availability) (h : shift.start = none) :
    (check_availability_constraint employee_id shift avails).1 = false := by
  unfold check_availability_constraint
  by_cases hE : ((avails.filter (fun a => a.user_id == employee_id)).isEmpty) = true
  · simp [hE]
  · simp [hE, parse_datetime, h]

end ILP

/-- C10 amended: when the candidate start fails to parse, the overlap,
break-time and max-daily-hours checks all report the constraint satisfied,
while the availability check fails closed, so `check_all_hard_constraints`
rejects the employee.  (When only the end fails to parse this does not hold:
the max-daily-hours check still counts prior same-day hours — see the
counterexample.) -/
theorem hard_constraints_unparseable_start (employee_id : String) (shift : ILP.Shift)
    (cur : ILP.AssignMap) (evs : List ILP.Shift) (avails : List ILP.Availability)
    (h : shift.start = none) :
    (ILP.check_no_overlap_constraint employee_id shift cur evs).1 = true ∧
    (ILP.check_break_time_constraint employee_id shift cur evs 1).1 = true ∧
    (ILP.check_max_hours_per_day_constraint employee_id shift cur evs 12).1 = true ∧
    (ILP.check_availability_constraint employee_id shift avails).1 = false ∧
    (ILP.check_all_hard_constraints employee_id shift cur evs avails).1 = false := by
  refine ⟨?_, ?_, ?_, ?_, ?_⟩
  · simp [ILP.check_no_overlap_constraint, ILP.shifts_overlap, ILP.parse_datetime, h,
      ILP.find?_const_false]
  · simp [ILP.check_break_time_constraint, ILP.parse_datetime, h,
      ILP.findSome?_const_none]
  · simp [ILP.check_max_hours_per_day_constraint, ILP.get_shift_date,
      ILP.parse_datetime, h]
  · exact ILP.availability_false_of_start_none employee_id shift avails h
  · exact (ILP.check_all_false_of_availability_false employee_id shift cur evs avails
      (ILP.availability_false_of_start_none employee_id shift avails h)).1

/-- Witness for the C10 amended theorem at a concrete unparseable-start
candidate. -/
theorem hard_constraints_unparseable_start_witness :
    (ILP.check_no_overlap_constraint "E" (ILP.Shift.mk "sx" "SX" none (some 3600) 1 [])
      [] []).1 = true ∧
    (ILP.check_break_time_constraint "E" (ILP.Shift.mk "sx" "SX" none (some 3600) 1 [])
      [] [] 1).1 = true ∧
    (ILP.check_max_hours_per_day_constraint "E" (ILP.Shift.mk "sx" "SX" none (some 3600) 1 [])
      [] [] 12).1 = true ∧
    (ILP.check_availability_constraint "E" (ILP.Shift.mk "sx" "SX" none (some 3600) 1 [])
      [ILP.Availability.mk "E" (some 0) (some 10000)]).1 = false ∧
    (ILP.check_all_hard_constraints "E" (ILP.Shift.mk "sx" "SX" none (some 3600) 1 [])
      [] [] [ILP.Availability.mk "E" (some 0) (some 10000)]).1 = false :=
  hard_constraints_unparseable_start "E" (ILP.Shift.mk "sx" "SX" none (some 3600) 1 [])
    [] [] [ILP.Availability.mk "E" (some 0) (some 10000)] rfl

/-- C10 counterexample: a candidate whose end fails to parse but whose start
parses is rejected by the max-daily-hours check (13 prior hours on the same
day), contradicting the claim that the three checks always pass on a
malformed candidate timestamp. -/
theorem unparseable_end_max_hours_cex :
    (ILP.Shift.mk "sx" "SX" (some 3600) none 1 []).«end» = none ∧
    (ILP.check_max_hours_per_day_constraint "E"
      (ILP.Shift.mk "sx" "SX" (some 3600) none 1 [])
      [("E", ["s0"])]
      [ILP.Shift.mk "s0" "S0" (some 0) (some 46800) 1 []] 12).1 = false := by
  refine ⟨rfl, ?_⟩
  simp [ILP.check_max_hours_per_day_constraint, ILP.get_shift_date,
    ILP.get_shift_duration_hours, ILP.parse_datetime, ILP.assignGetD, strIn,
    List.filter, List.find?, List.map, List.sum, List.any]
  try norm_num

/-- C3: when, after the exchange, each side individually violates the
availability constraint, the spec-modelled swap validator returns
`ok = false` with at least one issue tagged with each employee; and in
general the swap is valid exactly when both hypothetical placements pass
`check_all_hard_constraints`. -/
theorem validate_swap_availability (iid tid isid tsid : String)
    (shifts : List ILP.Shift) (avails : List ILP.Availability)
    (iSh tSh : ILP.Shift)
    (hf1 : shifts.find? (fun s => s.id == isid) = some iSh)
    (hf2 : shifts.find? (fun s => s.id == tsid) = some tSh)
    (hA : (ILP.check_availability_constraint iid tSh avails).1 = false)
    (hB : (ILP.check_availability_constraint tid iSh avails).1 = false) :
    (ILP.validate_swap iid tid isid tsid shifts avails).1 = false ∧
    (∃ x ∈ (ILP.validate_swap iid tid isid tsid shifts avails).2, x.employee_id = iid) ∧
    (∃ x ∈ (ILP.validate_swap iid tid isid tsid shifts avails).2, x.employee_id = tid) ∧
    (ILP.validate_swap iid tid isid tsid shifts avails).1 =
      ((ILP.check_all_hard_constraints iid tSh (ILP.swapHypState iid isid shifts)
          shifts avails).1 &&
       (ILP.check_all_hard_constraints tid iSh (ILP.swapHypState tid tsid shifts)
          shifts avails).1) := by
  have h1 := ILP.check_all_false_of_availability_false iid tSh
    (ILP.swapHypState iid isid shifts) shifts avails hA
  have h2 := ILP.check_all_false_of_availability_false tid iSh
    (ILP.swapHypState tid tsid shifts) shifts avails hB
  simp only [ILP.validate_swap, hf1, hf2]
  refine ⟨by rw [h1.1]; simp, ?_, ?_, by trivial⟩
  · refine ⟨ILP.SwapIssue.mk iid (ILP.check_availability_constraint iid tSh avails).2, ?_, rfl⟩
    exact List.mem_append_left _ (List.mem_map_of_mem _ h1.2)
  · refine ⟨ILP.SwapIssue.mk tid (ILP.check_availability_constraint tid iSh avails).2, ?_, rfl⟩
    exact List.mem_append_right _ (List.mem_map_of_mem _ h2.2)

/-- Witness for C3: a concrete swap where neither employee has any
availability window, so both sides fail and both are named in the issues. -/
theorem validate_swap_availability_witness :
    (ILP.validate_swap "I" "T" "s1" "s2"
      [ILP.Shift.mk "s1" "S1" (some 0) (some 3600) 1 ["I"],
       ILP.Shift.mk "s2" "S2" (some 7200) (some 10800) 1 ["T"]] []).1 = false ∧
    (∃ x ∈ (ILP.validate_swap "I" "T" "s1" "s2"
      [ILP.Shift.mk "s1" "S1" (some 0) (some 3600) 1 ["I"],
       ILP.Shift.mk "s2" "S2" (some 7200) (some 10800) 1 ["T"]] []).2,
        x.employee_id = "I") ∧
    (∃ x ∈ (ILP.validate_swap "I" "T" "s1" "s2"
      [ILP.Shift.mk "s1" "S1" (some 0) (some 3600) 1 ["I"],
       ILP.Shift.mk "s2" "S2" (some 7200) (some 10800) 1 ["T"]] []).2,
        x.employee_id = "T") ∧
    (ILP.validate_swap "I" "T" "s1" "s2"
      [ILP.Shift.mk "s1" "S1" (some 0) (some 3600) 1 ["I"],
       ILP.Shift.mk "s2" "S2" (some 7200) (some 10800) 1 ["T"]] []).1 =
      ((ILP.check_all_hard_constraints "I"
          (ILP.Shift.mk "s2" "S2" (some 7200) (some 10800) 1 ["T"])
          (ILP.swapHypState "I" "s1"
            [ILP.Shift.mk "s1" "S1" (some 0) (some 3600) 1 ["I"],
             ILP.Shift.mk "s2" "S2" (some 7200) (some 10800) 1 ["T"]])
          [ILP.Shift.mk "s1" "S1" (some 0) (some 3600) 1 ["I"],
           ILP.Shift.mk "s2" "S2" (some 7200) (some 10800) 1 ["T"]] []).1 &&
       (ILP.check_all_hard_constraints "T"
          (ILP.Shift.mk "s1" "S1" (some 0) (some 3600) 1 ["I"])
          (ILP.swapHypState "T" "s2"
            [ILP.Shift.mk "s1" "S1" (some 0) (some 3600) 1 ["I"],
             ILP.Shift.mk "s2" "S2" (some 7200) (some 10800) 1 ["T"]])
          [ILP.Shift.mk "s1" "S1" (some 0) (some 3600) 1 ["I"],
           ILP.Shift.mk "s2" "S2" (some 7200) (some 10800) 1 ["T"]] []).1) :=
  validate_swap_availability "I" "T" "s1" "s2"
    [ILP.Shift.mk "s1" "S1" (some 0) (some 3600) 1 ["I"],
     ILP.Shift.mk "s2" "S2" (some 7200) (some 10800) 1 ["T"]] []
    (ILP.Shift.mk "s1" "S1" (some 0) (some 3600) 1 ["I"])
    (ILP.Shift.mk "s2" "S2" (some 7200) (some 10800) 1 ["T"])
    rfl rfl rfl rfl
